import Mathlib

/-!
Shallow embedding of the realtime playback scheduler and session
synchronization logic of src/textcompose/index.tsx (the PromptDj
component).  Machine reals (track weights, audio-clock times, buffer
durations) are modelled as rationals; the JS Date.now clock as a natural
number of milliseconds.  Line numbers in the doc comments refer to
src/textcompose/index.tsx.
-/

namespace TextCompose

/-- PlaybackState (line 36): 'stopped' | 'playing' | 'loading' | 'paused'. -/
inductive PlaybackState where
  | stopped
  | playing
  | loading
  | paused
deriving DecidableEq, Repr

/-- Track (lines 28-34).  The weight is a number in the source; modelled
as a rational. -/
structure Track where
  trackId : String
  name : String
  color : String
  text : String
  weight : ℚ
deriving DecidableEq, Repr

/-- WeightedPrompt as sent to the remote session: text and weight. -/
structure WeightedPrompt where
  text : String
  weight : ℚ
deriving DecidableEq, Repr

/-- One run of the closure returned by throttle (lines 39-49).  The
closure keeps lastCall, initially 0; a call at time now whose payload is
a executes the wrapped function exactly when now - lastCall is at least
delay, and then sets lastCall to now; otherwise the call is dropped.
The function returns the executed calls, in order, each with the time it
executed and the payload it saw. -/
def throttleRun {α : Type} (delay : ℕ) : ℕ → List (ℕ × α) → List (ℕ × α)
  | _, [] => []
  | lastCall, (now, a) :: rest =>
    if delay ≤ now - lastCall then (now, a) :: throttleRun delay now rest
    else throttleRun delay lastCall rest

/-- Model of JavaScript String.prototype.trim, as called on line 1243:
drop whitespace from both ends of the text.  (Lean's own String.trim is
not kernel-computable, so the same operation is written out over the
character list.) -/
def trimText (s : String) : String :=
  ⟨((s.data.dropWhile Char.isWhitespace).reverse.dropWhile
      Char.isWhitespace).reverse⟩

/-- The filter predicate of setSessionWeightedPrompts (lines 1242-1244):
a track is published when its text is not in filteredTrackTexts, its
weight is positive and its trimmed text is nonempty. -/
def includeTrack (filteredTrackTexts : List String) (track : Track) : Bool :=
  !decide (track.text ∈ filteredTrackTexts) && decide (0 < track.weight)
    && !decide (trimText track.text = "")

/-- promptsToSend of setSessionWeightedPrompts (lines 1242-1248): filter
the tracks, then map each surviving track to the weighted prompt whose
text is "name: text" and whose weight is the track weight. -/
def promptsToSend (tracks : List Track) (filteredTrackTexts : List String) :
    List WeightedPrompt :=
  (tracks.filter (includeTrack filteredTrackTexts)).map
    (fun track => ⟨track.name ++ ": " ++ track.text, track.weight⟩)

/-- A run of the throttled setSessionWeightedPrompts (lines 1241-1258,
delay 200 ms, lastCall initially 0): each publish call carries the time
it was made and the (tracks, filteredTrackTexts) state current at that
moment; the result is the list of outbound setWeightedPrompts sends. -/
def publishPromptsRun (calls : List (ℕ × List Track × List String)) :
    List (ℕ × List WeightedPrompt) :=
  (throttleRun 200 0 calls).map (fun c => (c.1, promptsToSend c.2.1 c.2.2))

/-- bufferTime (line 1154): the lookahead, 2 seconds of program time. -/
def bufferTime : ℚ := 2

/-- State of the playback scheduler: the playback state, nextStartTime
(line 1153, 0 meaning unset) and the fire times of the armed
loading-to-playing setTimeout timers of line 1211, in arming order. -/
structure SchedState where
  playbackState : PlaybackState
  nextStartTime : ℚ
  armedTimers : List ℚ
deriving DecidableEq, Repr

/-- Result of handling one audio chunk: the new scheduler state, the
buffer handed to source.start (its start time and duration) when one was
scheduled, and whether the underrun branch ran. -/
structure ChunkEffect where
  state : SchedState
  scheduled : Option (ℚ × ℚ)
  underrun : Bool
deriving DecidableEq, Repr

/-- The audio-chunk branch of the onmessage handler (lines 1202-1220),
at hardware-clock time now with a decoded buffer of duration dur.
Chunks arriving while paused or stopped return early (line 1203).  If
nextStartTime is 0 it becomes now + bufferTime and a timer firing
bufferTime later is armed (lines 1209-1212).  If nextStartTime is then
strictly below now, the underrun branch (lines 1213-1217) sets the state
to loading and nextStartTime to now + bufferTime / 2.  The buffer is
started at nextStartTime, which then advances by dur (lines 1218-1219). -/
def handleChunk (s : SchedState) (now dur : ℚ) : ChunkEffect :=
  if s.playbackState = .paused ∨ s.playbackState = .stopped then
    ⟨s, none, false⟩
  else
    let nst1 := if s.nextStartTime = 0 then now + bufferTime else s.nextStartTime
    let timers1 :=
      if s.nextStartTime = 0 then s.armedTimers ++ [now + bufferTime]
      else s.armedTimers
    if nst1 < now then
      ⟨⟨.loading, now + bufferTime / 2 + dur, timers1⟩,
       some (now + bufferTime / 2, dur), true⟩
    else
      ⟨⟨s.playbackState, nst1 + dur, timers1⟩, some (nst1, dur), false⟩

/-- Firing of the earliest armed lookahead timer (the setTimeout callback
of line 1211): if the playback state is loading at fire time it becomes
playing, otherwise nothing happens; firing with no armed timer is a
no-op. -/
def fireLookaheadTimer (s : SchedState) : SchedState :=
  match s.armedTimers with
  | [] => s
  | _ :: rest =>
    ⟨if s.playbackState = .loading then .playing else s.playbackState,
     s.nextStartTime, rest⟩

/-- Scheduler-visible effect of pauseAudio (lines 1323-1332): state
paused, nextStartTime reset to 0.  The source cancels no timer. -/
def pauseSched (s : SchedState) : SchedState := ⟨.paused, 0, s.armedTimers⟩

/-- Scheduler-visible effect of loadAudio (lines 1333-1338): state
loading; nextStartTime is not touched. -/
def playSched (s : SchedState) : SchedState :=
  ⟨.loading, s.nextStartTime, s.armedTimers⟩

/-- Scheduler-visible effect of stopAudio (lines 1339-1346): state
stopped, nextStartTime reset to 0.  The source cancels no timer. -/
def stopSched (s : SchedState) : SchedState := ⟨.stopped, 0, s.armedTimers⟩

/-- Events of a scheduler trace: a chunk arrival, the user pausing,
the user starting playback, the user stopping, and the firing of the
earliest armed lookahead timer. -/
inductive SchedEv where
  | chunk (now dur : ℚ)
  | pauseEv
  | playEv
  | stopEv
  | fireEv
deriving DecidableEq, Repr

/-- One step of a scheduler trace. -/
def schedStep (s : SchedState) : SchedEv → SchedState
  | .chunk now dur => (handleChunk s now dur).state
  | .pauseEv => pauseSched s
  | .playEv => playSched s
  | .stopEv => stopSched s
  | .fireEv => fireLookaheadTimer s

/-- A scheduler trace: fold the events over the state. -/
def schedRun (s : SchedState) (evs : List SchedEv) : SchedState :=
  evs.foldl schedStep s

/-- A run of consecutive chunk arrivals (each a pair of arrival time and
buffer duration): returns the final state, the scheduled buffers in
order, and whether any step took the underrun branch. -/
def runChunks : SchedState → List (ℚ × ℚ) → SchedState × List (ℚ × ℚ) × Bool
  | s, [] => (s, [], false)
  | s, c :: rest =>
    let e := handleChunk s c.1 c.2
    let r := runChunks e.state rest
    (r.1,
     (match e.scheduled with
      | some b => b :: r.2.1
      | none => r.2.1),
     e.underrun || r.2.2)

/-- The back-to-back schedule beginning at x with the given durations:
each buffer starts where the previous one ended. -/
def chain (x : ℚ) : List ℚ → List (ℚ × ℚ)
  | [] => []
  | d :: ds => (x, d) :: chain (x + d) ds

/-- Contiguity of a list of scheduled buffers (start time, duration):
every buffer starts exactly where the previous one ends. -/
def contigb : List (ℚ × ℚ) → Bool
  | b1 :: b2 :: rest => (b2.1 == b1.1 + b1.2) && contigb (b2 :: rest)
  | _ => true

/-- Orchestrator-level state of the PromptDj component: the fields of
lines 1147-1157 that the playback, reset and track handlers read or
write.  filteredTrackTexts is the FilteredTextSet; tracks keeps the
insertion-ordered Map as a list with distinct trackIds. -/
structure AppState where
  playbackState : PlaybackState
  nextStartTime : ℚ
  connectionError : Bool
  tracks : List Track
  filteredTrackTexts : List String
deriving DecidableEq, Repr

/-- Externally visible actions, in program order: session commands,
outbound publishes, gain-node operations, toasts, the settings reset,
a connection attempt, and the scheduling of a delayed loadAudio. -/
inductive Action where
  | connectAttempt
  | playCmd
  | pauseCmd
  | stopCmd
  | resetContextCmd
  | publishPrompts (prompts : List WeightedPrompt)
  | publishConfig
  | gainSet (v : ℚ)
  | gainRampTo (target dur : ℚ)
  | recreateOutputNode
  | restoreDefaults
  | toast (msg : String)
  | scheduleResume (delayMs : ℕ)
deriving DecidableEq, Repr

/-- pauseAudio (lines 1323-1332): issue pause to the session, set state
paused, ramp the gain to 0 over 0.1 s, reset nextStartTime to 0 and
recreate the output gain node. -/
def pauseAudio (s : AppState) : AppState × List Action :=
  ({ s with playbackState := .paused, nextStartTime := 0 },
   [.pauseCmd, .gainRampTo 0 (1 / 10), .recreateOutputNode])

/-- loadAudio (lines 1333-1338): issue play, set state loading, set the
gain to 0 and ramp it to 1 over 0.2 s.  nextStartTime is not touched. -/
def loadAudio (s : AppState) : AppState × List Action :=
  ({ s with playbackState := .loading },
   [.playCmd, .gainSet 0, .gainRampTo 1 (2 / 10)])

/-- stopAudio (lines 1339-1346): issue stop, set state stopped, ramp the
gain to 0 over 0.1 s and reset nextStartTime to 0. -/
def stopAudio (s : AppState) : AppState × List Action :=
  ({ s with playbackState := .stopped, nextStartTime := 0 },
   [.stopCmd, .gainRampTo 0 (1 / 10)])

/-- handlePlayPause (lines 1310-1322).  connectOk says whether a
reconnect attempt leaves this.session defined; setupArrived says whether
a setupComplete message was processed during the awaited reconnect
(only that message clears connectionError, line 1196).  While playing,
pauseAudio; while paused or stopped, reconnect if needed (on failure
toast and return; on success republish prompts and loadAudio only if
connectionError has been cleared) else loadAudio; while loading, the
button stops via stopAudio. -/
def handlePlayPause (s : AppState) (connectOk setupArrived : Bool) :
    AppState × List Action :=
  match s.playbackState with
  | .playing => pauseAudio s
  | .paused | .stopped =>
    if s.connectionError then
      if connectOk then
        let s1 : AppState := { s with connectionError := !setupArrived }
        let r :=
          if s1.connectionError = false then loadAudio s1 else (s1, [])
        (r.1,
         .connectAttempt
           :: .publishPrompts (promptsToSend s1.tracks s1.filteredTrackTexts)
           :: r.2)
      else (s, [.connectAttempt, .toast "Failed to reconnect. Please try again."])
    else loadAudio s
  | .loading => stopAudio s

/-- handleReset (lines 1412-1428): reconnect when connectionError (on
failure toast and return), then pauseAudio, send resetContext, restore
the default settings; finally, when the playback state read at that
point is neither stopped nor paused and connectionError is clear,
schedule loadAudio 200 ms later, and when connectionError is set and the
state read at that point is neither stopped nor paused, force paused. -/
def handleReset (s : AppState) (connectOk setupArrived : Bool) :
    AppState × List Action :=
  if s.connectionError ∧ connectOk = false then
    (s, [.connectAttempt, .toast "Failed to reconnect for reset."])
  else
    let s0 : AppState :=
      if s.connectionError then { s with connectionError := !setupArrived } else s
    let pre : List Action := if s.connectionError then [.connectAttempt] else []
    let s1 := (pauseAudio s0).1
    let acts :=
      pre ++ (pauseAudio s0).2 ++ [Action.resetContextCmd, Action.restoreDefaults]
    if s1.playbackState ≠ .stopped ∧ s1.playbackState ≠ .paused ∧
        s1.connectionError = false then
      (s1, acts ++ [Action.scheduleResume 200])
    else if s1.connectionError = true ∧ s1.playbackState ≠ .stopped ∧
        s1.playbackState ≠ .paused then
      ({ s1 with playbackState := .paused }, acts)
    else (s1, acts)

/-- Outcome of an awaited session send: it resolves, or it rejects with
an error message. -/
inductive SendResult where
  | ok
  | err (msg : String)
deriving DecidableEq, Repr

/-- Body of the throttled setSessionWeightedPrompts (lines 1241-1258),
run when the throttle executes it: compute promptsToSend and, when a
session exists, send it; when the send rejects, toast the error message
(or the fallback text) and pauseAudio. -/
def setSessionWeightedPromptsBody (s : AppState) (hasSession : Bool)
    (result : SendResult) : AppState × List Action :=
  let prompts := promptsToSend s.tracks s.filteredTrackTexts
  if hasSession then
    match result with
    | .ok => (s, [.publishPrompts prompts])
    | .err m =>
      let msg := if m = "" then "Error setting prompts" else m
      ((pauseAudio s).1,
       .publishPrompts prompts :: .toast msg :: (pauseAudio s).2)
  else (s, [])

/-- Body of the throttled updateSettings (lines 1406-1410), run when the
throttle executes it: when a session exists, send the generation config.
The source has no try/catch here, so a rejected send changes no state
and produces no toast and no pause. -/
def updateSettingsBody (s : AppState) (hasSession : Bool)
    (_result : SendResult) : AppState × List Action :=
  if hasSession then (s, [.publishConfig]) else (s, [])

/-- handleTrackChanged (lines 1264-1283): look the track up by id (a
missing id returns unchanged); overwrite its name, text and weight; when
the old text is in filteredTrackTexts and differs from the new text,
delete the old text from the set.  The new text is never added. -/
def handleTrackChanged (s : AppState) (changed : Track) : AppState :=
  match s.tracks.find? (fun t => t.trackId == changed.trackId) with
  | none => s
  | some track =>
    let filtered' :=
      if track.text ∈ s.filteredTrackTexts ∧ track.text ≠ changed.text then
        s.filteredTrackTexts.filter (fun x => x != track.text)
      else s.filteredTrackTexts
    { s with
      tracks := s.tracks.map (fun t =>
        if t.trackId = changed.trackId then
          { t with name := changed.name, text := changed.text,
                   weight := changed.weight }
        else t),
      filteredTrackTexts := filtered' }

/-- handleTrackRemoved (lines 1389-1404): when the id is present, delete
the removed track's current text from filteredTrackTexts if it is there,
and drop the track from the map. -/
def handleTrackRemoved (s : AppState) (trackIdToRemove : String) : AppState :=
  match s.tracks.find? (fun t => t.trackId == trackIdToRemove) with
  | none => s
  | some track =>
    let filtered' :=
      if track.text ∈ s.filteredTrackTexts then
        s.filteredTrackTexts.filter (fun x => x != track.text)
      else s.filteredTrackTexts
    { s with
      tracks := s.tracks.filter (fun t => t.trackId != trackIdToRemove),
      filteredTrackTexts := filtered' }

/-- Helper: a throttle window in which every call is dropped.  When each
call is less than delay after lastCall, no call executes. -/
theorem throttleRun_all_dropped {α : Type} (delay : ℕ) (l : List (ℕ × α)) :
    ∀ lastCall : ℕ, (∀ p ∈ l, p.1 - lastCall < delay) →
      throttleRun delay lastCall l = [] := by
  induction l with
  | nil => intro lastCall _; rfl
  | cons p rest ih =>
    intro lastCall h
    simp only [throttleRun]
    rw [if_neg (Nat.not_le.mpr (h p (List.mem_cons_self _ _)))]
    exact ih lastCall (fun q hq => h q (List.mem_cons_of_mem _ hq))

/-- C1 counterexample: five publish calls within 50 ms with weights
0.1 to 0.5 produce exactly one send, but it carries weight 0.1 (the
first call's state), not 0.5 as the claim states: the throttle of lines
39-49 executes the first call in the window and drops the later ones. -/
theorem publish_five_calls_counterexample :
    publishPromptsRun
      [(1000, [⟨"track-0", "Drums", "#FF6B6B", "kick", 1/10⟩], []),
       (1010, [⟨"track-0", "Drums", "#FF6B6B", "kick", 2/10⟩], []),
       (1020, [⟨"track-0", "Drums", "#FF6B6B", "kick", 3/10⟩], []),
       (1030, [⟨"track-0", "Drums", "#FF6B6B", "kick", 4/10⟩], []),
       (1040, [⟨"track-0", "Drums", "#FF6B6B", "kick", 5/10⟩], [])] =
      [(1000, [⟨"Drums: kick", 1/10⟩])] ∧ (1 : ℚ)/10 ≠ 5/10 := by
  with_unfolding_all decide

/-- C1 (corrected): calls to the throttled publishPrompts within one
200 ms window after an executing first call collapse to exactly one
outbound send, and that send reflects the track/filter state at the
time of the FIRST call (leading edge); the later calls are dropped. -/
theorem publish_throttle_first_call_wins
    (t1 : ℕ) (tracks1 : List Track) (filtered1 : List String)
    (rest : List (ℕ × List Track × List String))
    (h1 : 200 ≤ t1) (h2 : ∀ p ∈ rest, p.1 - t1 < 200) :
    publishPromptsRun ((t1, tracks1, filtered1) :: rest) =
      [(t1, promptsToSend tracks1 filtered1)] := by
  simp only [publishPromptsRun, throttleRun]
  rw [if_pos (by simpa using h1), throttleRun_all_dropped 200 rest t1 h2]
  rfl

/-- Witness for publish_throttle_first_call_wins at the five-call
scenario of the spec. -/
theorem publish_throttle_first_call_wins_witness :
    publishPromptsRun
      [(1000, [⟨"track-0", "Drums", "#FF6B6B", "kick", 1/10⟩], []),
       (1010, [⟨"track-0", "Drums", "#FF6B6B", "kick", 2/10⟩], []),
       (1020, [⟨"track-0", "Drums", "#FF6B6B", "kick", 3/10⟩], []),
       (1030, [⟨"track-0", "Drums", "#FF6B6B", "kick", 4/10⟩], []),
       (1040, [⟨"track-0", "Drums", "#FF6B6B", "kick", 5/10⟩], [])] =
      [(1000, promptsToSend [⟨"track-0", "Drums", "#FF6B6B", "kick", 1/10⟩] [])] :=
  publish_throttle_first_call_wins 1000 _ _ _ (by norm_num) (by decide)

/-- C2 (code bug): for every starting state and every reconnect outcome,
handleReset never schedules the delayed resume and never issues a play
command.  The resume condition of line 1423 reads playbackState after
pauseAudio (line 1419) has already set it to paused, so the setTimeout
branch of line 1424 is dead: the claim's resume (playback active before
the reset and connection healthy) never happens. -/
theorem handleReset_never_schedules_resume :
    ∀ (s : AppState) (connectOk setupArrived : Bool),
      Action.scheduleResume 200 ∉ (handleReset s connectOk setupArrived).2 ∧
      Action.playCmd ∉ (handleReset s connectOk setupArrived).2 := by
  intro s c a
  obtain ⟨ps, nst, ce, tr, ft⟩ := s
  cases ce <;> cases c <;> cases a <;>
    simp [handleReset, pauseAudio]

/-- C3 counterexample: a user press of the play/pause control while the
state is loading transitions to stopped (line 1321 calls stopAudio), not
to paused as the claim states. -/
theorem pause_while_loading_counterexample :
    (handlePlayPause ⟨.loading, 7, false, [], []⟩ true true).1.playbackState
        = .stopped ∧
      (handlePlayPause ⟨.loading, 7, false, [], []⟩ true true).1.playbackState
        ≠ .paused := by
  with_unfolding_all decide

/-- C3 (corrected): a user pause while playing transitions to paused,
ramping gain to 0 over 0.1 s, issuing pause and resetting nextStartTime
to unset; while loading the same control instead stops: it transitions
to stopped, ramps gain to 0 over 0.1 s, issues stop and resets
nextStartTime to unset. -/
theorem pause_transitions :
    ∀ (s : AppState) (connectOk setupArrived : Bool),
      (s.playbackState = .playing →
        handlePlayPause s connectOk setupArrived =
          ({ s with playbackState := .paused, nextStartTime := 0 },
           [.pauseCmd, .gainRampTo 0 (1 / 10), .recreateOutputNode])) ∧
      (s.playbackState = .loading →
        handlePlayPause s connectOk setupArrived =
          ({ s with playbackState := .stopped, nextStartTime := 0 },
           [.stopCmd, .gainRampTo 0 (1 / 10)])) := by
  intro s c a
  constructor <;> intro h <;> simp [handlePlayPause, h, pauseAudio, stopAudio]

/-- Witness for pause_transitions: pausing a concrete playing state. -/
theorem pause_transitions_witness :
    handlePlayPause ⟨.playing, 5, false, [], []⟩ true true =
      (⟨.paused, 0, false, [], []⟩,
       [.pauseCmd, .gainRampTo 0 (1 / 10), .recreateOutputNode]) :=
  (pause_transitions ⟨.playing, 5, false, [], []⟩ true true).1 rfl

/-- C4 counterexample: a trace in which play is pressed, the first chunk
of the run arms the lookahead timer for time 2, the user pauses (the
timer stays armed), the user starts a second run, and the stale timer
then fires and promotes that second run to playing early, before any of
its audio is buffered (nextStartTime is still unset). -/
theorem stale_lookahead_timer_counterexample :
    (schedRun ⟨.loading, 0, []⟩ [.chunk 0 1, .pauseEv]).armedTimers = [2] ∧
      schedRun ⟨.loading, 0, []⟩ [.chunk 0 1, .pauseEv, .playEv, .fireEv] =
        ⟨.playing, 0, []⟩ := by
  with_unfolding_all decide

/-- C4 (corrected): pausing or stopping cancels no armed lookahead
timer; the timer's callback is only guarded — at fire time it promotes
the state to playing exactly when the state is loading (so it cannot
un-pause a paused or stopped run, but it can fire after a pause and
prematurely promote a subsequent run that is in loading). -/
theorem lookahead_timer_guarded_not_cancelled :
    ∀ s : SchedState,
      (pauseSched s).armedTimers = s.armedTimers ∧
      (stopSched s).armedTimers = s.armedTimers ∧
      (fireLookaheadTimer s).playbackState =
        (if s.playbackState = .loading ∧ s.armedTimers ≠ [] then .playing
         else s.playbackState) := by
  intro s
  obtain ⟨ps, nst, timers⟩ := s
  refine ⟨rfl, rfl, ?_⟩
  cases timers <;> cases ps <;> simp [fireLookaheadTimer]

/-- C5 counterexample: a chunk arriving exactly when the scheduling
offset equals the current hardware-clock time (offset 5 at time 5,
state playing) is NOT treated as an underrun: the source's check on
line 1213 is strict (nextStartTime < currentTime), so the state stays
playing and the buffer is scheduled at time 5, while the claim
(offset ≤ now) says the state should become loading. -/
theorem underrun_boundary_counterexample :
    handleChunk ⟨.playing, 5, []⟩ 5 1 =
        ⟨⟨.playing, 6, []⟩, some (5, 1), false⟩ ∧
      (handleChunk ⟨.playing, 5, []⟩ 5 1).state.playbackState ≠ .loading := by
  with_unfolding_all decide

/-- C5 (corrected): for a chunk handled while loading or playing with
the offset set, when the offset is STRICTLY less than the current time
the underrun branch runs: the state becomes loading and the offset is
reset to now + bufferTime / 2 (one second) before this buffer is
scheduled at that reset offset. -/
theorem underrun_strict :
    ∀ (s : SchedState) (now dur : ℚ),
      (s.playbackState = .loading ∨ s.playbackState = .playing) →
      s.nextStartTime ≠ 0 →
      s.nextStartTime < now →
      handleChunk s now dur =
          ⟨⟨.loading, now + bufferTime / 2 + dur, s.armedTimers⟩,
           some (now + bufferTime / 2, dur), true⟩ ∧
        bufferTime / 2 = 1 := by
  intro s now dur hps hnz hlt
  have hnotps : ¬(s.playbackState = .paused ∨ s.playbackState = .stopped) := by
    rcases hps with h | h <;> simp [h]
  refine ⟨?_, by norm_num [bufferTime]⟩
  simp [handleChunk, hnotps, hnz, hlt]

/-- Witness for underrun_strict: a concrete late chunk (offset 3,
arrival time 5). -/
theorem underrun_strict_witness :
    handleChunk ⟨.playing, 3, []⟩ 5 1 =
        ⟨⟨.loading, 5 + bufferTime / 2 + 1, []⟩,
         some (5 + bufferTime / 2, 1), true⟩ ∧
      bufferTime / 2 = 1 :=
  underrun_strict ⟨.playing, 3, []⟩ 5 1 (Or.inr rfl)
    (by with_unfolding_all decide) (by with_unfolding_all decide)

/-- C7 counterexample: a rejected generation-config push (updateSettings,
lines 1406-1410) leaves the state untouched — in particular playback
stays playing and no toast is emitted — because the source has no
try/catch there, while the claim says every failing publish send is
surfaced and pauses playback. -/
theorem config_push_failure_counterexample :
    updateSettingsBody ⟨.playing, 5, false, [], []⟩ true (.err "bad config") =
        (⟨.playing, 5, false, [], []⟩, [Action.publishConfig]) ∧
      (updateSettingsBody ⟨.playing, 5, false, [], []⟩ true
          (.err "bad config")).1.playbackState ≠ .paused := by
  with_unfolding_all decide

/-- C7 (corrected): a rejected weighted-prompt push is surfaced by a
toast (the error message, or a fallback text when it is empty) and
pauses playback; a rejected generation-config push changes nothing:
the state is returned unchanged and the only action is the config send
itself (no toast, no pause). -/
theorem publish_failure_handling :
    ∀ (s : AppState) (m : String),
      (setSessionWeightedPromptsBody s true (.err m)).1.playbackState
          = .paused ∧
      Action.toast (if m = "" then "Error setting prompts" else m) ∈
        (setSessionWeightedPromptsBody s true (.err m)).2 ∧
      (updateSettingsBody s true (.err m)).1 = s ∧
      (updateSettingsBody s true (.err m)).2 = [Action.publishConfig] := by
  intro s m
  refine ⟨?_, ?_, rfl, rfl⟩ <;>
    simp [setSessionWeightedPromptsBody, pauseAudio]

/-- C6 (confirmed): every entry of the derived WeightedPrompt list comes
from a track with positive weight, nonempty trimmed text and text not in
the FilteredTextSet, and its text is the composed string "name: text"
with the track's weight — so the list contains no entry for an excluded
track. -/
theorem promptsToSend_sound :
    ∀ (tracks : List Track) (filtered : List String) (p : WeightedPrompt),
      p ∈ promptsToSend tracks filtered →
      ∃ t ∈ tracks, 0 < t.weight ∧ trimText t.text ≠ "" ∧ t.text ∉ filtered ∧
        p.text = t.name ++ ": " ++ t.text ∧ p.weight = t.weight := by
  intro tracks filtered p hp
  simp only [promptsToSend, List.mem_map, List.mem_filter] at hp
  obtain ⟨t, ⟨ht, hinc⟩, hpt⟩ := hp
  simp only [includeTrack, Bool.and_eq_true, Bool.not_eq_true',
    decide_eq_false_iff_not, decide_eq_true_eq] at hinc
  subst hpt
  exact ⟨t, ht, hinc.1.2, hinc.2, hinc.1.1, rfl, rfl⟩

/-- Witness for promptsToSend_sound on a one-track state. -/
theorem promptsToSend_sound_witness :
    ∃ t ∈ [(⟨"track-0", "Drums", "#FF6B6B", "kick", 1⟩ : Track)],
      0 < t.weight ∧ trimText t.text ≠ "" ∧ t.text ∉ ([] : List String) ∧
        (⟨"Drums: kick", (1 : ℚ)⟩ : WeightedPrompt).text
            = t.name ++ ": " ++ t.text ∧
        (⟨"Drums: kick", (1 : ℚ)⟩ : WeightedPrompt).weight = t.weight :=
  promptsToSend_sound [⟨"track-0", "Drums", "#FF6B6B", "kick", 1⟩] []
    ⟨"Drums: kick", 1⟩ (by with_unfolding_all decide)

/-- C9 (confirmed): an edit of a track whose old text is in the
FilteredTextSet and whose new text differs removes the old text from the
set, and the new text is in the resulting set only if it already was in
the old set (the edit never adds it). -/
theorem edit_reconciles_filtered :
    ∀ (s : AppState) (changed tr : Track),
      s.tracks.find? (fun t => t.trackId == changed.trackId) = some tr →
      tr.text ∈ s.filteredTrackTexts →
      tr.text ≠ changed.text →
      tr.text ∉ (handleTrackChanged s changed).filteredTrackTexts ∧
        (changed.text ∈ (handleTrackChanged s changed).filteredTrackTexts ↔
          changed.text ∈ s.filteredTrackTexts) := by
  intro s changed tr hf hmem hne
  simp only [handleTrackChanged, hf]
  rw [if_pos ⟨hmem, hne⟩]
  constructor
  · simp [List.mem_filter]
  · simp [List.mem_filter, bne_iff_ne, Ne.symm hne]

/-- Witness for edit_reconciles_filtered: editing the only track's
filtered text "kick" to "snare". -/
theorem edit_reconciles_filtered_witness :
    "kick" ∉ (handleTrackChanged
        ⟨.playing, 0, false, [⟨"track-0", "Drums", "#FF6B6B", "kick", 1⟩],
          ["kick"]⟩
        ⟨"track-0", "Drums", "#FF6B6B", "snare", 1⟩).filteredTrackTexts ∧
      ("snare" ∈ (handleTrackChanged
          ⟨.playing, 0, false, [⟨"track-0", "Drums", "#FF6B6B", "kick", 1⟩],
            ["kick"]⟩
          ⟨"track-0", "Drums", "#FF6B6B", "snare", 1⟩).filteredTrackTexts ↔
        "snare" ∈ ["kick"]) :=
  edit_reconciles_filtered
    ⟨.playing, 0, false, [⟨"track-0", "Drums", "#FF6B6B", "kick", 1⟩],
      ["kick"]⟩
    ⟨"track-0", "Drums", "#FF6B6B", "snare", 1⟩
    ⟨"track-0", "Drums", "#FF6B6B", "kick", 1⟩
    (by with_unfolding_all decide) (by decide) (by decide)

/-- C10 (confirmed): removing a track whose current text is in the
FilteredTextSet deletes that text from the set, and afterwards any track
carrying that same text (with positive weight and nonempty trimmed text)
is included in the derived prompt list instead of being suppressed. -/
theorem remove_clears_filtered :
    ∀ (s : AppState) (trId : String) (tr : Track),
      s.tracks.find? (fun t => t.trackId == trId) = some tr →
      tr.text ∈ s.filteredTrackTexts →
      tr.text ∉ (handleTrackRemoved s trId).filteredTrackTexts ∧
        ∀ (tracks2 : List Track) (t2 : Track), t2 ∈ tracks2 →
          t2.text = tr.text → 0 < t2.weight → trimText t2.text ≠ "" →
          (⟨t2.name ++ ": " ++ t2.text, t2.weight⟩ : WeightedPrompt) ∈
            promptsToSend tracks2 (handleTrackRemoved s trId).filteredTrackTexts := by
  intro s trId tr hf hmem
  have hnot : tr.text ∉ (handleTrackRemoved s trId).filteredTrackTexts := by
    simp only [handleTrackRemoved, hf]
    rw [if_pos hmem]
    simp [List.mem_filter]
  refine ⟨hnot, ?_⟩
  intro tracks2 t2 ht2 htext hw htrim
  have hnm2 : t2.text ∉ (handleTrackRemoved s trId).filteredTrackTexts :=
    htext ▸ hnot
  simp only [promptsToSend, List.mem_map]
  refine ⟨t2, ?_, rfl⟩
  simp only [List.mem_filter]
  exact ⟨ht2, by simp [includeTrack, hnm2, hw, htrim]⟩

/-- Witness for remove_clears_filtered: after removing the track whose
filtered text is "kick", a track reusing the text "kick" publishes. -/
theorem remove_clears_filtered_witness :
    (⟨"Bass" ++ ": " ++ "kick", (1 : ℚ)⟩ : WeightedPrompt) ∈
      promptsToSend [⟨"track-1", "Bass", "#118AB2", "kick", 1⟩]
        (handleTrackRemoved
          ⟨.playing, 0, false, [⟨"track-0", "Drums", "#FF6B6B", "kick", 1⟩],
            ["kick"]⟩ "track-0").filteredTrackTexts :=
  (remove_clears_filtered
      ⟨.playing, 0, false, [⟨"track-0", "Drums", "#FF6B6B", "kick", 1⟩],
        ["kick"]⟩ "track-0" ⟨"track-0", "Drums", "#FF6B6B", "kick", 1⟩
      (by with_unfolding_all decide) (by decide)).2
    [⟨"track-1", "Bass", "#118AB2", "kick", 1⟩]
    ⟨"track-1", "Bass", "#118AB2", "kick", 1⟩
    (by decide) rfl (by with_unfolding_all decide) (by decide)

/-- Helper: a back-to-back chain of buffers is contiguous. -/
theorem chain_contigb (ds : List ℚ) : ∀ x : ℚ, contigb (chain x ds) = true := by
  induction ds with
  | nil => intro x; rfl
  | cons d ds ih =>
    intro x
    cases ds with
    | nil => rfl
    | cons d2 ds2 =>
      have h := ih (x + d)
      simpa [chain, contigb] using h

/-- Helper: a run of chunks starting with the offset already set (and
positive), all durations positive, and no underrun, schedules exactly
the back-to-back chain starting at the current offset. -/
theorem runChunks_chain (chunks : List (ℚ × ℚ)) :
    ∀ s : SchedState,
      (s.playbackState = .loading ∨ s.playbackState = .playing) →
      0 < s.nextStartTime →
      (∀ c ∈ chunks, 0 < c.2) →
      (runChunks s chunks).2.2 = false →
      (runChunks s chunks).2.1 = chain s.nextStartTime (chunks.map Prod.snd) := by
  induction chunks with
  | nil => intro s _ _ _ _; rfl
  | cons c rest ih =>
    intro s hps hnst hdur hflag
    obtain ⟨now, d⟩ := c
    have hnotps : ¬(s.playbackState = .paused ∨ s.playbackState = .stopped) := by
      rcases hps with h | h <;> simp [h]
    have hnz : ¬(s.nextStartTime = 0) := ne_of_gt hnst
    by_cases hur : s.nextStartTime < now
    · exfalso
      simp [runChunks, handleChunk, hnotps, hnz, hur] at hflag
    · have hstep : handleChunk s now d =
          ⟨⟨s.playbackState, s.nextStartTime + d, s.armedTimers⟩,
           some (s.nextStartTime, d), false⟩ := by
        simp [handleChunk, hnotps, hnz, hur]
      have hd : 0 < d := hdur (now, d) (List.mem_cons_self _ _)
      simp only [runChunks, hstep] at hflag ⊢
      rw [ih ⟨s.playbackState, s.nextStartTime + d, s.armedTimers⟩ hps
        (add_pos hnst hd)
        (fun c2 hc2 => hdur c2 (List.mem_cons_of_mem _ hc2))
        (by simpa using hflag)]
      simp [chain]

/-- C8 (confirmed): over a run of chunk arrivals with no underrun and no
pause or stop in between (state loading or playing throughout, arrival
times nonnegative, buffer durations positive), the scheduled buffers are
contiguous: each buffer starts exactly where the previous one ends. -/
theorem run_buffers_contiguous :
    ∀ (s : SchedState) (chunks : List (ℚ × ℚ)),
      (s.playbackState = .loading ∨ s.playbackState = .playing) →
      0 ≤ s.nextStartTime →
      (∀ c ∈ chunks, 0 ≤ c.1 ∧ 0 < c.2) →
      (runChunks s chunks).2.2 = false →
      contigb (runChunks s chunks).2.1 = true := by
  intro s chunks hps h0 hc hflag
  rcases eq_or_lt_of_le h0 with hz | hpos
  · cases chunks with
    | nil => rfl
    | cons c rest =>
      obtain ⟨now, d⟩ := c
      have hnotps : ¬(s.playbackState = .paused ∨ s.playbackState = .stopped) := by
        rcases hps with h | h <;> simp [h]
      have hnow : 0 ≤ now := (hc (now, d) (List.mem_cons_self _ _)).1
      have hd : 0 < d := (hc (now, d) (List.mem_cons_self _ _)).2
      have hnz : s.nextStartTime = 0 := hz.symm
      have hbt : (0 : ℚ) < bufferTime := by norm_num [bufferTime]
      have hnu : ¬(now + bufferTime < now) := by
        simp only [not_lt]
        linarith
      have hstep : handleChunk s now d =
          ⟨⟨s.playbackState, now + bufferTime + d,
            s.armedTimers ++ [now + bufferTime]⟩,
           some (now + bufferTime, d), false⟩ := by
        simp [handleChunk, hnotps, hnz, hnu]
      simp only [runChunks, hstep] at hflag ⊢
      rw [runChunks_chain rest
        ⟨s.playbackState, now + bufferTime + d, s.armedTimers ++ [now + bufferTime]⟩
        hps (by positivity)
        (fun c2 hc2 => (hc c2 (List.mem_cons_of_mem _ hc2)).2)
        (by simpa using hflag)]
      have hch := chain_contigb (d :: rest.map Prod.snd) (now + bufferTime)
      simpa [chain] using hch
  · rw [runChunks_chain chunks s hps hpos (fun c2 hc2 => (hc c2 hc2).2) hflag]
    exact chain_contigb _ _

/-- Witness for run_buffers_contiguous: a fresh run of three one-second
chunks arriving at times 0, 1 and 2. -/
theorem run_buffers_contiguous_witness :
    contigb (runChunks ⟨.loading, 0, []⟩ [(0, 1), (1, 1), (2, 1)]).2.1 = true :=
  run_buffers_contiguous ⟨.loading, 0, []⟩ [(0, 1), (1, 1), (2, 1)]
    (Or.inl rfl) (by with_unfolding_all decide)
    (by with_unfolding_all decide) (by with_unfolding_all decide)

end TextCompose
